import Mathlib

/-!
Shallow embedding of `crates/misato_security/src/password.rs` from
MisatoWiki/Website-API: salted password hashing and verification.

Bytes are modelled as natural numbers and byte strings (`Vec<u8>`,
`&[u8]`) as lists of naturals.  The external `rust-argon2` crate is
modelled abstractly by a parameter `hashRaw : HashRaw` standing for
`argon2::hash_raw(password, salt, &argon2::Config::default())`; it
returns `none` exactly where the crate would return `Err` (for
instance on a salt shorter than the crate's minimum).  The
thread-local generator behind `rand::random::<u8>()` is modelled as an
explicit state `Rng`: an infinite byte stream together with the
position of the next draw; every operation of the module receives this
ambient state, and an operation that never draws returns it unchanged.
A Rust `.unwrap()` applied to an `Err` value panics; the embedding
returns `none` at exactly those points.
-/

set_option maxRecDepth 20000

namespace Misato

/-- Byte strings as lists of naturals (each intended below 256). -/
abbrev Bytes := List Nat

/-- Abstract model of `argon2::hash_raw(password, salt, &Config::default())`
from the external rust-argon2 crate: password and salt to either the raw
hash bytes (`Ok`) or `none` (`Err`, e.g. salt too short). -/
abbrev HashRaw := Bytes → Bytes → Option Bytes

/-- State of the thread-local RNG behind `rand::random::<u8>()`: an
infinite stream of random values and the position of the next draw. -/
structure Rng where
  stream : Nat → Nat
  pos : Nat

/-- The struct `Password { salt: Vec<u8>, hash: Vec<u8> }`. -/
structure Password where
  salt : Bytes
  hash : Bytes
deriving DecidableEq

/-- The function `generate_salt(size)`:
`(0..size).map(|_| rand::random::<u8>()).collect()` draws `size`
successive bytes from the RNG; the advanced RNG state is returned
alongside. -/
def generate_salt (size : Nat) (r : Rng) : Bytes × Rng :=
  ((List.range size).map (fun i => r.stream (r.pos + i) % 256),
   ⟨r.stream, r.pos + size⟩)

/-- The method `Password::hash_password(password)`: generates a fresh
256-byte salt, then `argon2::hash_raw(password, &salt, ...).unwrap()`.
The `unwrap` panics on `Err`, modelled by `none`. -/
def Password.hash_password (hashRaw : HashRaw) (password : Bytes) (r : Rng) :
    Option Password × Rng :=
  ((hashRaw password (generate_salt 256 r).1).map
     (fun v => Password.mk (generate_salt 256 r).1 v),
   (generate_salt 256 r).2)

/-- The method `Password::hash_password_salt(salt, password)`:
`argon2::hash_raw(password, &salt, ...).unwrap()` with the caller's
salt; `salt.iter().cloned().collect()` copies the salt unchanged.  The
Rust function never draws from the RNG, so the ambient state comes back
unchanged. -/
def Password.hash_password_salt (hashRaw : HashRaw) (salt password : Bytes)
    (r : Rng) : Option Password × Rng :=
  ((hashRaw password salt).map (fun v => Password.mk salt v), r)

/-- Modelled from the external rust-argon2 crate:
`argon2::verify_raw(password, salt, hash, &config)` re-hashes the
password with the salt and configuration and compares the result to the
supplied hash, or returns `Err` (`none`) when hashing fails. -/
def verify_raw (hashRaw : HashRaw) (password salt hash : Bytes) : Option Bool :=
  (hashRaw password salt).map (fun v => decide (v = hash))

/-- The method `Password::is_correct_password(&self, password)`:
`argon2::verify_raw(password, &self.salt, &self.hash, ...)`, with
`Ok(result)` returned as is and any `Err` collapsed to `false`. -/
def Password.is_correct_password (hashRaw : HashRaw) (self : Password)
    (password : Bytes) : Bool :=
  match verify_raw hashRaw password self.salt self.hash with
  | some result => result
  | none => false

/-- A concrete stand-in for the derivation function, used in witnesses:
rejects salts shorter than eight bytes (the argon2 minimum), otherwise
echoes the password, hence injective in the password. -/
def testHash : HashRaw := fun pw s => if 8 ≤ s.length then some pw else none

/-- A concrete stand-in for the derivation function that echoes the
salt, hence injective in the salt. -/
def saltEcho : HashRaw := fun _ s => if 8 ≤ s.length then some s else none

/-- A concrete stand-in for the derivation function that always fails. -/
def rejectAll : HashRaw := fun _ _ => none

/-- A concrete RNG state: 256 zero bytes, then ones. -/
def testRng : Rng := ⟨fun i => if i < 256 then 0 else 1, 0⟩

/-- A concrete password for witnesses. -/
def testPw : Bytes := [1]

/-- A second, distinct concrete password for witnesses. -/
def otherPw : Bytes := [2]

/-- The salt drawn by the first `hash_password` call under `testRng`. -/
def zeroSalt : Bytes := List.replicate 256 0

/-- The salt drawn by the second `hash_password` call under `testRng`. -/
def oneSalt : Bytes := List.replicate 256 1

/-- The credential `hash_password` produces from `testPw` under
`testRng` with `testHash`. -/
def zeroCred : Password := ⟨zeroSalt, testPw⟩

/-- The credential of the first `hash_password` call under `testRng`
with `saltEcho`. -/
def echoCred0 : Password := ⟨zeroSalt, zeroSalt⟩

/-- The credential of the second `hash_password` call under `testRng`
with `saltEcho`. -/
def echoCred1 : Password := ⟨oneSalt, oneSalt⟩

/-- Unpacking a successful `hash_password_salt` call: the stored salt is
the argument and the stored hash is the raw argon2 output. -/
theorem hash_password_salt_eq (hashRaw : HashRaw) (s p : Bytes) (r : Rng)
    (c : Password)
    (h : (Password.hash_password_salt hashRaw s p r).1 = some c) :
    c.salt = s ∧ hashRaw p s = some c.hash := by
  replace h : (hashRaw p s).map (fun v => Password.mk s v) = some c := h
  rcases Option.map_eq_some'.mp h with ⟨v, hv, hc⟩
  subst hc
  exact ⟨rfl, hv⟩

/-- Unpacking a successful `hash_password` call: the stored salt is the
freshly generated one and the stored hash is the raw argon2 output. -/
theorem hash_password_eq (hashRaw : HashRaw) (p : Bytes) (r : Rng)
    (c : Password)
    (h : (Password.hash_password hashRaw p r).1 = some c) :
    c.salt = (generate_salt 256 r).1 ∧
      hashRaw p (generate_salt 256 r).1 = some c.hash := by
  replace h : (hashRaw p (generate_salt 256 r).1).map
      (fun v => Password.mk (generate_salt 256 r).1 v) = some c := h
  rcases Option.map_eq_some'.mp h with ⟨v, hv, hc⟩
  subst hc
  exact ⟨rfl, hv⟩

/-- Two maps over `List.range n` differ as soon as they differ at one
index below `n`. -/
theorem map_range_ne_of_ne_at (f g : Nat → Nat) (n i : Nat) (hi : i < n)
    (hne : f i ≠ g i) :
    (List.range n).map f ≠ (List.range n).map g := by
  intro heq
  apply hne
  have h1 : ((List.range n).map f)[i]? = some (f i) := by
    simp [List.getElem?_map, List.getElem?_range, hi]
  have h2 : ((List.range n).map g)[i]? = some (g i) := by
    simp [List.getElem?_map, List.getElem?_range, hi]
  rw [heq, h2] at h1
  exact (Option.some.inj h1).symm

/-- Claim C1: for every password `p`, verifying `p` against the
credential produced by `hash_password(p)` (the spec's `hash_new`)
returns `true`, whenever the underlying derivation succeeded. -/
theorem hash_new_verify_roundtrip (hashRaw : HashRaw) (p : Bytes) (r : Rng)
    (cred : Password)
    (h : (Password.hash_password hashRaw p r).1 = some cred) :
    Password.is_correct_password hashRaw cred p = true := by
  obtain ⟨hs, hh⟩ := hash_password_eq hashRaw p r cred h
  have hpc : hashRaw p cred.salt = some cred.hash := by rw [hs]; exact hh
  unfold Password.is_correct_password verify_raw
  rw [hpc]
  simp

/-- Witness for C1 at a concrete derivation function, RNG state and
password. -/
theorem hash_new_verify_roundtrip_witness :
    Password.is_correct_password testHash zeroCred testPw = true :=
  hash_new_verify_roundtrip testHash testPw testRng zeroCred (by decide)

/-- Claim C2: a wrong password is rejected by the credential
`hash_password(p)` produced, given that the derivation function does
not collide on the two passwords at the stored salt. -/
theorem hash_new_rejects_other_password (hashRaw : HashRaw) (p p' : Bytes)
    (r : Rng) (cred : Password)
    (h : (Password.hash_password hashRaw p r).1 = some cred)
    (hne : p' ≠ p)
    (hcoll : hashRaw p' cred.salt ≠ hashRaw p cred.salt) :
    Password.is_correct_password hashRaw cred p' = false := by
  obtain ⟨hs, hh⟩ := hash_password_eq hashRaw p r cred h
  have hpc : hashRaw p cred.salt = some cred.hash := by rw [hs]; exact hh
  cases hx : hashRaw p' cred.salt with
  | none =>
      unfold Password.is_correct_password verify_raw
      rw [hx]
      rfl
  | some v =>
      have hvne : v ≠ cred.hash := by
        intro hcon
        apply hcoll
        rw [hx, hpc, hcon]
      unfold Password.is_correct_password verify_raw
      rw [hx]
      simp [hvne]

/-- Witness for C2 at a concrete derivation function, RNG state and a
pair of distinct passwords. -/
theorem hash_new_rejects_other_password_witness :
    Password.is_correct_password testHash zeroCred otherPw = false :=
  hash_new_rejects_other_password testHash testPw otherPw testRng zeroCred
    (by decide) (by decide) (by decide)

/-- Claim C3: `hash_password_salt` is deterministic: its result does
not depend on the ambient RNG state, only on the derivation function,
the salt and the password, so repeated calls are byte-identical. -/
theorem hash_password_salt_deterministic (hashRaw : HashRaw) (s p : Bytes)
    (r1 r2 : Rng) :
    (Password.hash_password_salt hashRaw s p r1).1 =
      (Password.hash_password_salt hashRaw s p r2).1 := rfl

/-- Claim C5: `is_correct_password` totalises derivation failure: when
the underlying derivation function rejects the stored salt it returns
`false` (its codomain is `Bool`, so it returns a boolean on every
input; the Rust match has no panicking arm). -/
theorem is_correct_password_false_on_failure (hashRaw : HashRaw)
    (cred : Password) (p : Bytes) (h : hashRaw p cred.salt = none) :
    Password.is_correct_password hashRaw cred p = false := by
  unfold Password.is_correct_password verify_raw
  rw [h]
  rfl

/-- Witness for C5: a credential with an empty (malformed) salt, which
the derivation function rejects. -/
theorem is_correct_password_false_on_failure_witness :
    Password.is_correct_password testHash ⟨[], []⟩ testPw = false :=
  is_correct_password_false_on_failure testHash ⟨[], []⟩ testPw (by decide)

/-- Claim C10: `hash_password_salt` preserves its salt argument: a
successful call stores the input salt byte for byte. -/
theorem hash_password_salt_preserves_salt (hashRaw : HashRaw) (s p : Bytes)
    (r : Rng) (c : Password)
    (h : (Password.hash_password_salt hashRaw s p r).1 = some c) :
    c.salt = s := by
  replace h : (hashRaw p s).map (fun v => Password.mk s v) = some c := h
  rcases Option.map_eq_some'.mp h with ⟨v, hv, hc⟩
  subst hc
  rfl

/-- Witness for C10 at a concrete salt of eight zero bytes. -/
theorem hash_password_salt_preserves_salt_witness :
    (Password.mk (List.replicate 8 0) testPw).salt = List.replicate 8 0 :=
  hash_password_salt_preserves_salt testHash (List.replicate 8 0) testPw
    testRng (Password.mk (List.replicate 8 0) testPw) (by decide)

/-- Claim C4: two successive `hash_password` calls draw disjoint spans
of the random stream, so whenever the stream differs across those two
spans the credentials carry different salts, and also different hashes
as soon as the derivation function separates the two salts. -/
theorem hash_password_fresh_salt (hashRaw : HashRaw) (p : Bytes) (r : Rng)
    (c1 c2 : Password)
    (h1 : (Password.hash_password hashRaw p r).1 = some c1)
    (h2 : (Password.hash_password hashRaw p
            (Password.hash_password hashRaw p r).2).1 = some c2)
    (hfresh : ∃ i, i < 256 ∧
      r.stream (r.pos + i) % 256 ≠ r.stream (r.pos + 256 + i) % 256)
    (hinj : c1.salt ≠ c2.salt → hashRaw p c1.salt ≠ hashRaw p c2.salt) :
    c1.salt ≠ c2.salt ∧ c1.hash ≠ c2.hash := by
  obtain ⟨hs1, hh1⟩ := hash_password_eq hashRaw p r c1 h1
  obtain ⟨hs2, hh2⟩ := hash_password_eq hashRaw p
    (Password.hash_password hashRaw p r).2 c2 h2
  obtain ⟨i, hi, hne⟩ := hfresh
  have hsalt : c1.salt ≠ c2.salt := by
    rw [hs1, hs2]
    show (List.range 256).map (fun j => r.stream (r.pos + j) % 256) ≠
      (List.range 256).map (fun j => r.stream (r.pos + 256 + j) % 256)
    exact map_range_ne_of_ne_at _ _ 256 i hi hne
  refine ⟨hsalt, fun hcon => hinj hsalt ?_⟩
  have e1 : hashRaw p c1.salt = some c1.hash := by rw [hs1]; exact hh1
  have e2 : hashRaw p c2.salt = some c2.hash := by rw [hs2]; exact hh2
  rw [e1, e2, hcon]

/-- Witness for C4: under `testRng` the first draw is 256 zero bytes
and the second 256 one bytes, and `saltEcho` separates the salts. -/
theorem hash_password_fresh_salt_witness :
    echoCred0.salt ≠ echoCred1.salt ∧ echoCred0.hash ≠ echoCred1.hash :=
  hash_password_fresh_salt saltEcho testPw testRng echoCred0 echoCred1
    (by decide) (by decide) ⟨0, by decide⟩ (by decide)

/-- Claim C6: `generate_salt n` returns exactly `n` bytes, and the salt
stored by `hash_password` has the configured length 256. -/
theorem salt_has_configured_length (hashRaw : HashRaw) (p : Bytes) (r : Rng) :
    (∀ n, ((generate_salt n r).1).length = n) ∧
    ∀ cred, (Password.hash_password hashRaw p r).1 = some cred →
      cred.salt.length = 256 := by
  constructor
  · intro n
    simp [generate_salt]
  · intro cred h
    obtain ⟨hs, _⟩ := hash_password_eq hashRaw p r cred h
    rw [hs]
    simp [generate_salt]

/-- Witness for C6 at a concrete size and a concrete credential. -/
theorem salt_has_configured_length_witness :
    ((generate_salt 5 testRng).1).length = 5 ∧ zeroCred.salt.length = 256 :=
  ⟨(salt_has_configured_length testHash testPw testRng).1 5,
   (salt_has_configured_length testHash testPw testRng).2 zeroCred (by decide)⟩

/-- Claim C7: with the same salt, two passwords that the derivation
function separates receive different stored hashes. -/
theorem hash_password_salt_distinct_hashes (hashRaw : HashRaw)
    (s p1 p2 : Bytes) (r1 r2 : Rng) (c1 c2 : Password)
    (h1 : (Password.hash_password_salt hashRaw s p1 r1).1 = some c1)
    (h2 : (Password.hash_password_salt hashRaw s p2 r2).1 = some c2)
    (hne : p1 ≠ p2) (hcoll : hashRaw p1 s ≠ hashRaw p2 s) :
    c1.hash ≠ c2.hash := by
  obtain ⟨_, e1⟩ := hash_password_salt_eq hashRaw s p1 r1 c1 h1
  obtain ⟨_, e2⟩ := hash_password_salt_eq hashRaw s p2 r2 c2 h2
  intro hcon
  apply hcoll
  rw [e1, e2, hcon]

/-- Witness for C7 at a concrete salt of eight zero bytes and two
distinct passwords. -/
theorem hash_password_salt_distinct_hashes_witness :
    (Password.mk (List.replicate 8 0) testPw).hash ≠
      (Password.mk (List.replicate 8 0) otherPw).hash :=
  hash_password_salt_distinct_hashes testHash (List.replicate 8 0) testPw
    otherPw testRng testRng (Password.mk (List.replicate 8 0) testPw)
    (Password.mk (List.replicate 8 0) otherPw)
    (by decide) (by decide) (by decide) (by decide)

/-- Claim C9: `hash_password_salt` is not total: when the derivation
function rejects the salt, the `unwrap` on its `Err` result panics
(modelled by `none`) instead of returning a credential or an error
value; `hash_password` carries the same `unwrap` on its derivation
result. -/
theorem hash_password_salt_fails_on_rejected_salt (hashRaw : HashRaw)
    (s p : Bytes) (r r' : Rng) (h : hashRaw p s = none) :
    (Password.hash_password_salt hashRaw s p r).1 = none ∧
    (hashRaw p (generate_salt 256 r').1 = none →
      (Password.hash_password hashRaw p r').1 = none) := by
  constructor
  · show (hashRaw p s).map (fun v => Password.mk s v) = none
    rw [h]
    rfl
  · intro h'
    show (hashRaw p (generate_salt 256 r').1).map
      (fun v => Password.mk (generate_salt 256 r').1 v) = none
    rw [h']
    rfl

/-- Witness for C9: the empty salt together with a derivation function
that rejects every input. -/
theorem hash_password_salt_fails_on_rejected_salt_witness :
    (Password.hash_password_salt rejectAll [] testPw testRng).1 = none ∧
    (Password.hash_password rejectAll testPw testRng).1 = none :=
  ⟨(hash_password_salt_fails_on_rejected_salt rejectAll [] testPw testRng
      testRng (by decide)).1,
   (hash_password_salt_fails_on_rejected_salt rejectAll [] testPw testRng
      testRng (by decide)).2 (by decide)⟩

end Misato
